import Mathlib

/-!
Verification of the miniheap/meshing subsystem described in spec.md.

The repository ships only the unit test src/src/unit/mprot_mesh.cc; the
implementation of Bitmap, Freelist, MiniHeap and GlobalHeap is not under
src/, so those components are modelled from the spec (sections 3 to 5 and
8 of spec.md), with the unit test used to fix the calling conventions.
-/

namespace Mesh

/-- Modelled from the spec: value of a little-endian bit string, used to
give the byte view of an occupancy bitmap (Bitmap raw byte access,
spec section 4.1).  Bit 0 of the list is the least significant bit. -/
def bitsToNat : List Bool → Nat
  | [] => 0
  | b :: rest => (if b then 1 else 0) + 2 * bitsToNat rest

/-- Modelled from the spec: number of bytes needed to store n bits
(the byteCount of a Bitmap over n slots, spec section 4.1). -/
def byteCount (n : Nat) : Nat := (n + 7) / 8

/-- Modelled from the spec: the raw byte view of an occupancy bitmap
(the read-only whole-buffer byte access of Bitmap, spec section 4.1).
Byte j packs bits 8*j .. 8*j+7 of the bitmap. -/
def bytesOf (l : List Bool) : List Nat :=
  (List.range (byteCount l.length)).map fun j => bitsToNat ((l.drop (8 * j)).take 8)

/-- Modelled from the spec: the meshability predicate over two raw
bitmap byte buffers of the given byte length (spec sections 4.5 and 8.1):
true iff the bitwise AND of the two buffers is zero on every byte. -/
def bitmapsMeshable (b1 b2 : List Nat) (len : Nat) : Bool :=
  (List.range len).all fun j => b1.getD j 0 &&& b2.getD j 0 == 0

/-- Modelled from the spec: a MiniHeap (spec section 3): a fixed-size-class
span of equal slots with an occupancy bitmap.  bits is the occupancy
bitmap, one bit per slot; base is the base address of the primary virtual
span; meshedSpans lists the base addresses of spans consumed by earlier
mesh operations (empty for a freshly allocated MiniHeap). -/
structure MiniHeap where
  base : Nat
  meshedSpans : List Nat
  objectSize : Nat
  bits : List Bool
deriving DecidableEq

namespace MiniHeap

/-- Modelled from the spec: slot count of the MiniHeap (bitmap capacity,
fixed at construction, spec section 3). -/
def maxCount (mh : MiniHeap) : Nat := mh.bits.length

/-- Modelled from the spec: inUseCount() == popcount(bitmap)
(spec section 3, MiniHeap invariant). -/
def inUseCount (mh : MiniHeap) : Nat := mh.bits.count true

/-- Modelled from the spec: isEmpty() accessor (spec section 4.3). -/
def isEmpty (mh : MiniHeap) : Bool := mh.inUseCount == 0

/-- Modelled from the spec: size in bytes of each virtual span of the
MiniHeap, maxCount * objectSize (spec section 3; the page-granularity
rounding is irrelevant to the claims and omitted). -/
def spanSize (mh : MiniHeap) : Nat := mh.maxCount * mh.objectSize

/-- Modelled from the spec: all base addresses of virtual spans owned by
this MiniHeap; the primary span first, then spans taken over by meshing
(spec section 4.6 step 7). -/
def spanBases (mh : MiniHeap) : List Nat := mh.base :: mh.meshedSpans

/-- Modelled from the spec: address-range membership used by GlobalHeap
routing (spec section 3, GlobalHeap address-range index). -/
def contains (mh : MiniHeap) (ptr : Nat) : Bool :=
  mh.spanBases.any fun s => decide (s ≤ ptr) && decide (ptr < s + mh.spanSize)

/-- Modelled from the spec: slot index backing a pointer, computed as
(ptr - base of owning span) / objectSize (spec section 4.3, free). -/
def slotOf (mh : MiniHeap) (ptr : Nat) : Nat :=
  match mh.spanBases.find? (fun s => decide (s ≤ ptr) && decide (ptr < s + mh.spanSize)) with
  | some s => (ptr - s) / mh.objectSize
  | none => 0

/-- Modelled from the spec: mallocAt(index) marks slot index occupied and
returns the address base + index * objectSize (spec section 4.3). -/
def mallocAt (mh : MiniHeap) (idx : Nat) : MiniHeap × Nat :=
  ({ mh with bits := mh.bits.set idx true }, mh.base + idx * mh.objectSize)

/-- Modelled from the spec: MiniHeap-level free(ptr): computes the slot
index from the pointer and clears the bitmap bit (spec section 4.3). -/
def freePtr (mh : MiniHeap) (ptr : Nat) : MiniHeap :=
  { mh with bits := mh.bits.set (mh.slotOf ptr) false }

/-- Modelled from the spec: the raw byte view of the MiniHeap occupancy
bitmap, as passed to the meshability test (spec sections 4.1 and 4.5). -/
def bitmapBytes (mh : MiniHeap) : List Nat := bytesOf mh.bits

/-- Modelled from the spec: byteCount() of the MiniHeap bitmap
(spec section 4.1). -/
def byteCnt (mh : MiniHeap) : Nat := byteCount mh.bits.length

/-- Modelled from the spec: freeEntireExcept(object) clears every bitmap
bit except the slot backing the object and rebuilds the freelist to hold
every other slot (spec section 4.2); returns the new MiniHeap and the
rebuilt freelist. -/
def freeEntireExcept (mh : MiniHeap) (ptr : Nat) : MiniHeap × List Nat :=
  let keep := mh.slotOf ptr
  ({ mh with bits := (List.range mh.bits.length).map fun i => decide (i = keep) },
   (List.range mh.bits.length).filter fun i => decide (i ≠ keep))

end MiniHeap

/- ### Basic bit/byte lemmas -/

theorem testBit_bitsToNat (l : List Bool) : ∀ k, (bitsToNat l).testBit k = l.getD k false := by
  induction l with
  | nil => intro k; simp [bitsToNat, Nat.zero_testBit]
  | cons b t ih =>
    intro k
    cases k with
    | zero =>
      rw [Nat.testBit_zero]
      have hmod : bitsToNat (b :: t) % 2 = if b then 1 else 0 := by
        cases b <;> simp [bitsToNat] <;> omega
      rw [hmod]
      cases b <;> simp
    | succ k =>
      rw [Nat.testBit_succ]
      have hdiv : bitsToNat (b :: t) / 2 = bitsToNat t := by
        cases b <;> simp [bitsToNat] <;> omega
      rw [hdiv, ih k]
      simp

theorem land_eq_zero_iff (x y : Nat) :
    x &&& y = 0 ↔ ∀ k, ¬(x.testBit k = true ∧ y.testBit k = true) := by
  constructor
  · intro h k ⟨hx, hy⟩
    have := Nat.testBit_land x y k
    rw [h, Nat.zero_testBit, hx, hy] at this
    simp at this
  · intro h
    apply Nat.eq_of_testBit_eq
    intro i
    rw [Nat.testBit_land, Nat.zero_testBit]
    have := h i
    cases hx : x.testBit i <;> cases hy : y.testBit i <;> simp_all

theorem getD_take_drop (l : List Bool) (m k : Nat) :
    ((l.drop m).take 8).getD k false = if k < 8 then l.getD (m + k) false else false := by
  rw [List.getD_eq_getElem?_getD, List.getElem?_take, List.getElem?_drop]
  split
  · rw [List.getD_eq_getElem?_getD]
  · simp

theorem getD_bytesOf (l : List Bool) (j : Nat) (h : j < byteCount l.length) :
    (bytesOf l).getD j 0 = bitsToNat ((l.drop (8 * j)).take 8) := by
  rw [bytesOf, List.getD_eq_getElem?_getD, List.getElem?_map, List.getElem?_range h]
  rfl

theorem byte_land_zero_iff (x y : List Bool) (j : Nat) :
    bitsToNat ((x.drop (8 * j)).take 8) &&& bitsToNat ((y.drop (8 * j)).take 8) = 0 ↔
      ∀ k < 8, ¬(x.getD (8 * j + k) false = true ∧ y.getD (8 * j + k) false = true) := by
  rw [land_eq_zero_iff]
  constructor
  · intro h k hk
    have := h k
    rw [testBit_bitsToNat, testBit_bitsToNat, getD_take_drop, getD_take_drop,
      if_pos hk, if_pos hk] at this
    exact this
  · intro h k
    rw [testBit_bitsToNat, testBit_bitsToNat, getD_take_drop, getD_take_drop]
    by_cases hk : k < 8
    · rw [if_pos hk, if_pos hk]; exact h k hk
    · rw [if_neg hk, if_neg hk]; simp

/-- Core equivalence: the byte-level meshability test over the byte views of
two n-bit occupancy bitmaps holds iff no slot index is set in both. -/
theorem meshable_iff_disjoint (x y : List Bool) (n : Nat)
    (hx : x.length = n) (hy : y.length = n) :
    bitmapsMeshable (bytesOf x) (bytesOf y) (byteCount n) = true ↔
      ∀ i, ¬(x.getD i false = true ∧ y.getD i false = true) := by
  rw [bitmapsMeshable, List.all_eq_true]
  constructor
  · intro h i
    by_cases hi : i < n
    · have hj : i / 8 < byteCount n := by
        rw [byteCount]; omega
      have hb := h (i / 8) (List.mem_range.mpr hj)
      rw [beq_iff_eq, getD_bytesOf x _ (hx ▸ hj), getD_bytesOf y _ (hy ▸ hj),
        byte_land_zero_iff] at hb
      have := hb (i % 8) (Nat.mod_lt i (by omega))
      have hi8 : 8 * (i / 8) + i % 8 = i := by omega
      rwa [hi8] at this
    · intro ⟨hxi, _⟩
      rw [List.getD_eq_default _ _ (by omega)] at hxi
      exact Bool.false_ne_true hxi
  · intro h j hj
    have hj' := List.mem_range.mp hj
    rw [beq_iff_eq, getD_bytesOf x _ (hx ▸ hj'), getD_bytesOf y _ (hy ▸ hj'),
      byte_land_zero_iff]
    intro k _
    exact h (8 * j + k)

/-- Claim C1: for MiniHeaps of equal slot count and equal objectSize, the
meshability predicate over the raw bitmap bytes (full byteCount) is true
iff no slot index has its bit set in both occupancy bitmaps. -/
theorem C1_meshable_iff_no_common_slot (a b : MiniHeap)
    (hcnt : a.maxCount = b.maxCount) (hobj : a.objectSize = b.objectSize) :
    bitmapsMeshable a.bitmapBytes b.bitmapBytes a.byteCnt = true ↔
      ∀ i < a.maxCount, ¬(a.bits.getD i false = true ∧ b.bits.getD i false = true) := by
  rw [MiniHeap.bitmapBytes, MiniHeap.bitmapBytes, MiniHeap.byteCnt,
    meshable_iff_disjoint a.bits b.bits a.bits.length rfl (by exact hcnt.symm)]
  constructor
  · intro h i _
    exact h i
  · intro h i
    by_cases hi : i < a.maxCount
    · exact h i hi
    · intro ⟨hxi, _⟩
      rw [List.getD_eq_default _ _ (by rw [MiniHeap.maxCount] at hi; omega)] at hxi
      exact Bool.false_ne_true hxi

/-- Witness for C1: concrete instances covering all-zero, all-one, single-bit
and overlapping patterns on 9-slot MiniHeaps (two bitmap bytes). -/
theorem C1_witness :
    (bitmapsMeshable (MiniHeap.mk 0 [] 16 [true, false, true, false, true, false, true, false, true]).bitmapBytes
        (MiniHeap.mk 4096 [] 16 [false, true, false, true, false, true, false, true, false]).bitmapBytes
        (MiniHeap.mk 0 [] 16 [true, false, true, false, true, false, true, false, true]).byteCnt = true ↔
      ∀ i < (MiniHeap.mk 0 [] 16 [true, false, true, false, true, false, true, false, true]).maxCount,
        ¬((MiniHeap.mk 0 [] 16 [true, false, true, false, true, false, true, false, true]).bits.getD i false = true ∧
          (MiniHeap.mk 4096 [] 16 [false, true, false, true, false, true, false, true, false]).bits.getD i false = true)) ∧
    (bitmapsMeshable (MiniHeap.mk 0 [] 16 [true, true, true, true, true, true, true, true, true]).bitmapBytes
        (MiniHeap.mk 4096 [] 16 [false, false, false, false, false, false, false, false, true]).bitmapBytes
        (MiniHeap.mk 0 [] 16 [true, true, true, true, true, true, true, true, true]).byteCnt = true ↔
      ∀ i < (MiniHeap.mk 0 [] 16 [true, true, true, true, true, true, true, true, true]).maxCount,
        ¬((MiniHeap.mk 0 [] 16 [true, true, true, true, true, true, true, true, true]).bits.getD i false = true ∧
          (MiniHeap.mk 4096 [] 16 [false, false, false, false, false, false, false, false, true]).bits.getD i false = true)) := by
  constructor
  · exact C1_meshable_iff_no_common_slot _ _ (by decide) (by decide)
  · exact C1_meshable_iff_no_common_slot _ _ (by decide) (by decide)

/- ### GlobalHeap and the meshing operation -/

/-- Modelled from the spec: GlobalHeap state (spec section 3): the set of
tracked MiniHeaps plus the process virtual memory, modelled as a
translation vmap from virtual address to physical address (none when the
address is unmapped) and physical byte memory pmem. -/
structure GlobalHeap where
  miniheaps : List MiniHeap
  vmap : Nat → Option Nat
  pmem : Nat → Nat

namespace GlobalHeap

/-- Modelled from the spec: getAllocatedMiniheapCount() diagnostic
accessor (spec section 4.4). -/
def getAllocatedMiniheapCount (gh : GlobalHeap) : Nat := gh.miniheaps.length

/-- Modelled from the spec: a mutator read of one byte at a virtual
address; none when the address is unmapped (spec section 5). -/
def readV (gh : GlobalHeap) (va : Nat) : Option Nat := (gh.vmap va).map gh.pmem

/-- Modelled from the spec: a mutator write of one byte at a virtual
address; a write to an unmapped address leaves memory unchanged
(the claims only ever write to mapped addresses). -/
def writeV (gh : GlobalHeap) (va byte : Nat) : GlobalHeap :=
  match gh.vmap va with
  | some pa => { gh with pmem := fun q => if q = pa then byte else gh.pmem q }
  | none => gh

/-- Modelled from the spec: GlobalHeap::free(ptr) (spec section 4.4):
looks up the owning MiniHeap by address range and forwards to its free;
none (fatal) when ptr falls in no tracked span. -/
def free (gh : GlobalHeap) (ptr : Nat) : Option GlobalHeap :=
  if gh.miniheaps.any (fun mh => mh.contains ptr) then
    some { gh with
      miniheaps := gh.miniheaps.map fun mh => if mh.contains ptr then mh.freePtr ptr else mh }
  else none

/-- Modelled from the spec: GlobalHeap::freeMiniheap(mh) (spec section
4.4): precondition isEmpty; unmaps the MiniHeap spans and removes it
from tracking; none (fatal) when the MiniHeap is not empty. -/
def freeMiniheap (gh : GlobalHeap) (mh : MiniHeap) : Option GlobalHeap :=
  if mh.isEmpty then
    some { miniheaps := gh.miniheaps.erase mh,
           vmap := fun va => if mh.contains va then none else gh.vmap va,
           pmem := gh.pmem }
  else none

end GlobalHeap

/-- Modelled from the spec: the surviving MiniHeap after meshing a and b
(spec section 4.6 steps 5 and 7): its bitmap is the bitwise OR of the two
original bitmaps and it takes over the consumed MiniHeap spans. -/
def mergedMiniheap (a b : MiniHeap) : MiniHeap :=
  { base := a.base, meshedSpans := a.meshedSpans ++ b.spanBases,
    objectSize := a.objectSize, bits := List.zipWith or a.bits b.bits }

/-- Modelled from the spec: the copy phase of the copy/remap step of
meshing (spec section 4.6 step 4, and the unit test comment that calls
meshing a copy/mremap phase): for each offset k below the span size whose
slot is live in b, copy the byte at offset k of b into offset k of a. -/
def copyLiveAux (a b : MiniHeap) : Nat → GlobalHeap → GlobalHeap
  | 0, gh => gh
  | k + 1, gh =>
    let g := copyLiveAux a b k gh
    if b.bits.getD (k / b.objectSize) false then
      match g.readV (b.base + k) with
      | some byte => g.writeV (a.base + k) byte
      | none => g
    else g

/-- Modelled from the spec: the remap phase of meshing (spec section 4.6
step 4): every virtual address inside one of the consumed MiniHeap spans
is retargeted to the physical page backing the same offset of the
survivor primary span. -/
def remapSpans (gh : GlobalHeap) (a b : MiniHeap) : GlobalHeap :=
  { gh with vmap := fun va =>
      match b.spanBases.find? (fun s => decide (s ≤ va) && decide (va < s + b.spanSize)) with
      | some s => gh.vmap (a.base + (va - s))
      | none => gh.vmap va }

/-- Modelled from the spec: GlobalHeap::meshLocked(a, b) (spec section
4.6): re-check meshability and abort when it fails; otherwise copy the
consumed MiniHeap live bytes, remap its spans onto the survivor, merge
the bitmaps, retire the consumed MiniHeap from tracking without unmapping
it, and null the caller handle to it.  Returns the new heap state, the
survivor handle and the consumed handle. -/
def GlobalHeap.meshLocked (gh : GlobalHeap) (a b : MiniHeap) :
    GlobalHeap × MiniHeap × Option MiniHeap :=
  if bitmapsMeshable a.bitmapBytes b.bitmapBytes a.byteCnt then
    let m := mergedMiniheap a b
    let g2 := remapSpans (copyLiveAux a b b.spanSize gh) a b
    let survivors := (g2.miniheaps.filter (fun mh => decide (mh ≠ b))).map
      (fun mh => if mh = a then m else mh)
    ({ g2 with miniheaps := survivors }, m, none)
  else (gh, a, some b)

/- ### Popcount of the merged bitmap -/

theorem count_zipWith_or (x : List Bool) : ∀ (y : List Bool), x.length = y.length →
    (∀ i, ¬(x.getD i false = true ∧ y.getD i false = true)) →
    (List.zipWith or x y).count true = x.count true + y.count true := by
  induction x with
  | nil =>
    intro y hlen _
    cases y with
    | nil => simp
    | cons b t => simp at hlen
  | cons a x ih =>
    intro y hlen hd
    cases y with
    | nil => simp at hlen
    | cons b y =>
      have h0 := hd 0
      simp only [List.getD_cons_zero] at h0
      have ht := ih y (by simpa using hlen) (fun i => by have := hd (i + 1); simpa using this)
      simp only [List.zipWith_cons_cons, List.count_cons, ht]
      cases a <;> cases b <;> simp_all <;> omega

/-- Core postconditions of a successful mesh: survivor bitmap is the OR of
the originals, survivor in-use count is the sum, consumed handle nulled. -/
theorem meshLocked_core (gh : GlobalHeap) (a b : MiniHeap)
    (hlen : a.bits.length = b.bits.length)
    (hmesh : bitmapsMeshable a.bitmapBytes b.bitmapBytes a.byteCnt = true) :
    (gh.meshLocked a b).2.1.bits = List.zipWith or a.bits b.bits ∧
    (gh.meshLocked a b).2.1.inUseCount = a.inUseCount + b.inUseCount ∧
    (gh.meshLocked a b).2.2 = none := by
  have hd : ∀ i, ¬(a.bits.getD i false = true ∧ b.bits.getD i false = true) :=
    (meshable_iff_disjoint a.bits b.bits a.bits.length rfl hlen.symm).mp hmesh
  rw [GlobalHeap.meshLocked, if_pos hmesh]
  exact ⟨rfl, count_zipWith_or a.bits b.bits hlen hd, rfl⟩

/-- Claim C2: after a successful mesh of two distinct meshable MiniHeaps, the
survivor bitmap is the bitwise OR of the two original bitmaps, the
survivor inUseCount is the sum of the two original in-use counts, and the
caller handle to the consumed MiniHeap is the null sentinel. -/
theorem C2_meshLocked_postconditions (gh : GlobalHeap) (a b : MiniHeap)
    (hcnt : a.maxCount = b.maxCount) (hobj : a.objectSize = b.objectSize)
    (hab : a ≠ b)
    (hmesh : bitmapsMeshable a.bitmapBytes b.bitmapBytes a.byteCnt = true) :
    (gh.meshLocked a b).2.1.bits = List.zipWith or a.bits b.bits ∧
    (gh.meshLocked a b).2.1.inUseCount = a.inUseCount + b.inUseCount ∧
    (gh.meshLocked a b).2.2 = none :=
  meshLocked_core gh a b hcnt hmesh

/-- Witness for C2: a concrete mesh of two 2-slot MiniHeaps with disjoint
single-bit occupancy. -/
theorem C2_witness :
    ((GlobalHeap.mk [MiniHeap.mk 0 [] 1 [true, false], MiniHeap.mk 100 [] 1 [false, true]]
        (fun va => some va) (fun _ => 0)).meshLocked
        (MiniHeap.mk 0 [] 1 [true, false]) (MiniHeap.mk 100 [] 1 [false, true])).2.1.bits =
      List.zipWith or [true, false] [false, true] ∧
    ((GlobalHeap.mk [MiniHeap.mk 0 [] 1 [true, false], MiniHeap.mk 100 [] 1 [false, true]]
        (fun va => some va) (fun _ => 0)).meshLocked
        (MiniHeap.mk 0 [] 1 [true, false]) (MiniHeap.mk 100 [] 1 [false, true])).2.1.inUseCount =
      (MiniHeap.mk 0 [] 1 [true, false]).inUseCount + (MiniHeap.mk 100 [] 1 [false, true]).inUseCount ∧
    ((GlobalHeap.mk [MiniHeap.mk 0 [] 1 [true, false], MiniHeap.mk 100 [] 1 [false, true]]
        (fun va => some va) (fun _ => 0)).meshLocked
        (MiniHeap.mk 0 [] 1 [true, false]) (MiniHeap.mk 100 [] 1 [false, true])).2.2 = none :=
  C2_meshLocked_postconditions _ _ _ (by decide) (by decide) (by decide) (by decide)

/- ### mallocAt -/

/-- Claim C7: mallocAt(index) on a free in-range slot marks the slot occupied in
the bitmap and returns exactly the address base + index * objectSize. -/
theorem C7_mallocAt_spec (mh : MiniHeap) (idx : Nat)
    (hidx : idx < mh.maxCount) (hfree : mh.bits.getD idx false = false) :
    (mh.mallocAt idx).1.bits.getD idx false = true ∧
    (mh.mallocAt idx).2 = mh.base + idx * mh.objectSize := by
  refine ⟨?_, rfl⟩
  rw [MiniHeap.maxCount] at hidx
  rw [MiniHeap.mallocAt]
  simp [List.getD_eq_getElem?_getD, List.getElem?_set, hidx]

/-- Witness for C7: slot 31 of a 32-slot MiniHeap of 128-byte objects lies at
base + 31 * 128. -/
theorem C7_witness :
    ((MiniHeap.mk 4096 [] 128 (List.replicate 32 false)).mallocAt 31).1.bits.getD 31 false = true ∧
    ((MiniHeap.mk 4096 [] 128 (List.replicate 32 false)).mallocAt 31).2 =
      (MiniHeap.mk 4096 [] 128 (List.replicate 32 false)).base +
        31 * (MiniHeap.mk 4096 [] 128 (List.replicate 32 false)).objectSize :=
  C7_mallocAt_spec _ 31 (by decide) (by decide)

/- ### freeEntireExcept -/

theorem getD_indicator_map (s n i : Nat) (h : i < n) :
    ((List.range n).map fun j => decide (j = s)).getD i false = decide (i = s) := by
  rw [List.getD_eq_getElem?_getD, List.getElem?_map, List.getElem?_range h]
  rfl

theorem count_indicator (s n : Nat) :
    ((List.range n).map fun i => decide (i = s)).count true = if s < n then 1 else 0 := by
  induction n with
  | zero => simp
  | succ n ih =>
    rw [List.range_succ, List.map_append, List.count_append, ih]
    by_cases hs : n = s
    · subst hs
      simp
    · have hd : (decide (n = s)) = false := by simp [hs]
      by_cases hlt : s < n
      · simp [hd, hlt, Nat.lt_succ_of_lt hlt]
      · have hge : ¬s < n + 1 := by omega
        simp [hd, hlt, hge]

/-- Claim C8: freeEntireExcept on a MiniHeap with a live object clears every
bitmap bit except the slot backing the object, rebuilds the freelist to
hold exactly every other slot, and leaves inUseCount at exactly 1. -/
theorem C8_freeEntireExcept_spec (mh : MiniHeap) (ptr : Nat)
    (hlive : mh.bits.getD (mh.slotOf ptr) false = true) :
    (∀ i < mh.maxCount,
        (mh.freeEntireExcept ptr).1.bits.getD i false = decide (i = mh.slotOf ptr)) ∧
    (∀ i, i ∈ (mh.freeEntireExcept ptr).2 ↔ i < mh.maxCount ∧ i ≠ mh.slotOf ptr) ∧
    (mh.freeEntireExcept ptr).1.inUseCount = 1 := by
  have hs : mh.slotOf ptr < mh.bits.length := by
    by_contra hcon
    rw [List.getD_eq_default _ _ (by omega)] at hlive
    exact Bool.false_ne_true hlive
  refine ⟨?_, ?_, ?_⟩
  · intro i hi
    rw [MiniHeap.maxCount] at hi
    exact getD_indicator_map _ _ _ hi
  · intro i
    rw [MiniHeap.freeEntireExcept]
    simp [List.mem_filter, List.mem_range, MiniHeap.maxCount]
  · rw [MiniHeap.freeEntireExcept]
    show ((List.range mh.bits.length).map fun i => decide (i = mh.slotOf ptr)).count true = 1
    rw [count_indicator, if_pos hs]

/-- Witness for C8: a 4-slot MiniHeap with slots 1 and 3 live, keeping the
object at slot 3 (pointer 30 with 10-byte objects based at 0). -/
theorem C8_witness :
    (∀ i < (MiniHeap.mk 0 [] 10 [false, true, false, true]).maxCount,
        ((MiniHeap.mk 0 [] 10 [false, true, false, true]).freeEntireExcept 30).1.bits.getD i false =
          decide (i = (MiniHeap.mk 0 [] 10 [false, true, false, true]).slotOf 30)) ∧
    (∀ i, i ∈ ((MiniHeap.mk 0 [] 10 [false, true, false, true]).freeEntireExcept 30).2 ↔
        i < (MiniHeap.mk 0 [] 10 [false, true, false, true]).maxCount ∧
          i ≠ (MiniHeap.mk 0 [] 10 [false, true, false, true]).slotOf 30) ∧
    ((MiniHeap.mk 0 [] 10 [false, true, false, true]).freeEntireExcept 30).1.inUseCount = 1 :=
  C8_freeEntireExcept_spec _ 30 (by decide)

/- ### freeMiniheap -/

/-- Claim C5: freeMiniheap on a non-empty MiniHeap is fatal (none); on an empty
tracked MiniHeap it succeeds, decreases getAllocatedMiniheapCount by
exactly one, unmaps the MiniHeap virtual span, and afterwards a pointer
in that span (owned by no other MiniHeap) is no longer resolvable by
free. -/
theorem C5_freeMiniheap_spec (gh : GlobalHeap) (mh : MiniHeap)
    (hmem : mh ∈ gh.miniheaps) (hnd : gh.miniheaps.Nodup) :
    (mh.isEmpty = false → gh.freeMiniheap mh = none) ∧
    (mh.isEmpty = true →
      ∃ gh', gh.freeMiniheap mh = some gh' ∧
        gh'.getAllocatedMiniheapCount + 1 = gh.getAllocatedMiniheapCount ∧
        (∀ va, mh.contains va = true → gh'.vmap va = none) ∧
        (∀ ptr, mh.contains ptr = true →
          (∀ x ∈ gh.miniheaps, x ≠ mh → x.contains ptr = false) →
          gh'.free ptr = none)) := by
  constructor
  · intro hne
    simp [GlobalHeap.freeMiniheap, hne]
  · intro he
    refine ⟨{ miniheaps := gh.miniheaps.erase mh,
              vmap := fun va => if mh.contains va then none else gh.vmap va,
              pmem := gh.pmem },
      by simp [GlobalHeap.freeMiniheap, he], ?_, ?_, ?_⟩
    · show (gh.miniheaps.erase mh).length + 1 = gh.miniheaps.length
      rw [List.length_erase_of_mem hmem]
      have hpos : 0 < gh.miniheaps.length := List.length_pos.mpr (List.ne_nil_of_mem hmem)
      omega
    · intro va hva
      show (if mh.contains va then none else gh.vmap va) = none
      rw [hva]
      simp
    · intro ptr _ hothers
      rw [GlobalHeap.free]
      have hany : (gh.miniheaps.erase mh).any (fun x => x.contains ptr) = false := by
        rw [List.any_eq_false]
        intro x hx
        have hx' := hnd.mem_erase_iff.mp hx
        simp [hothers x hx'.2 hx'.1]
      rw [hany]
      simp

/-- Witness for C5: a heap tracking one empty and one occupied MiniHeap. -/
theorem C5_witness :
    ((MiniHeap.mk 0 [] 1 [false, false]).isEmpty = false →
      (GlobalHeap.mk [MiniHeap.mk 0 [] 1 [false, false], MiniHeap.mk 100 [] 1 [true, false]]
        (fun va => some va) (fun _ => 0)).freeMiniheap (MiniHeap.mk 0 [] 1 [false, false]) = none) ∧
    ((MiniHeap.mk 0 [] 1 [false, false]).isEmpty = true →
      ∃ gh', (GlobalHeap.mk [MiniHeap.mk 0 [] 1 [false, false], MiniHeap.mk 100 [] 1 [true, false]]
          (fun va => some va) (fun _ => 0)).freeMiniheap (MiniHeap.mk 0 [] 1 [false, false]) = some gh' ∧
        gh'.getAllocatedMiniheapCount + 1 =
          (GlobalHeap.mk [MiniHeap.mk 0 [] 1 [false, false], MiniHeap.mk 100 [] 1 [true, false]]
            (fun va => some va) (fun _ => 0)).getAllocatedMiniheapCount ∧
        (∀ va, (MiniHeap.mk 0 [] 1 [false, false]).contains va = true → gh'.vmap va = none) ∧
        (∀ ptr, (MiniHeap.mk 0 [] 1 [false, false]).contains ptr = true →
          (∀ x ∈ (GlobalHeap.mk [MiniHeap.mk 0 [] 1 [false, false], MiniHeap.mk 100 [] 1 [true, false]]
              (fun va => some va) (fun _ => 0)).miniheaps,
            x ≠ MiniHeap.mk 0 [] 1 [false, false] → x.contains ptr = false) →
          gh'.free ptr = none)) :=
  C5_freeMiniheap_spec _ _ (by decide) (by decide)

/- ### Frame effect of free -/

theorem count_set_false (l : List Bool) : ∀ i, l.getD i false = true →
    (l.set i false).count true + 1 = l.count true := by
  induction l with
  | nil => intro i h; simp at h
  | cons a t ih =>
    intro i h
    cases i with
    | zero =>
      simp only [List.getD_cons_zero] at h
      simp [List.count_cons, h]
    | succ i =>
      simp only [List.getD_cons_succ] at h
      simp only [List.set_cons_succ, List.count_cons]
      have := ih i h
      omega

theorem getD_set_ne (l : List Bool) (i j : Nat) (b : Bool) (h : i ≠ j) :
    (l.set i b).getD j false = l.getD j false := by
  rw [List.getD_eq_getElem?_getD, List.getD_eq_getElem?_getD, List.getElem?_set]
  simp [h]

theorem slotOf_freePtr (mh : MiniHeap) (p q : Nat) : (mh.freePtr p).slotOf q = mh.slotOf q := by
  simp [MiniHeap.slotOf, MiniHeap.freePtr, MiniHeap.spanBases, MiniHeap.spanSize,
    MiniHeap.maxCount]

/-- Claim C10: GlobalHeap::free of a live object routes to the owning MiniHeap,
decreases its inUseCount by exactly one, and leaves every other slot bit
unchanged; for a MiniHeap with exactly two live objects in distinct
slots, the MiniHeap is non-empty after the first free and isEmpty exactly
after the second. -/
theorem C10_free_frame_spec (gh : GlobalHeap) (mh : MiniHeap) (ptr : Nat)
    (hmem : mh ∈ gh.miniheaps) (hc : mh.contains ptr = true)
    (huniq : ∀ x ∈ gh.miniheaps, x ≠ mh → x.contains ptr = false)
    (hlive : mh.bits.getD (mh.slotOf ptr) false = true) :
    (∃ gh', gh.free ptr = some gh' ∧
      gh'.miniheaps = gh.miniheaps.map (fun x => if x = mh then mh.freePtr ptr else x)) ∧
    (mh.freePtr ptr).inUseCount + 1 = mh.inUseCount ∧
    (∀ j, j ≠ mh.slotOf ptr → (mh.freePtr ptr).bits.getD j false = mh.bits.getD j false) ∧
    (∀ ptr2, mh.slotOf ptr2 ≠ mh.slotOf ptr →
      mh.bits.getD (mh.slotOf ptr2) false = true →
      mh.inUseCount = 2 →
      (mh.freePtr ptr).isEmpty = false ∧ ((mh.freePtr ptr).freePtr ptr2).isEmpty = true) := by
  refine ⟨?_, ?_, ?_, ?_⟩
  · have hany : gh.miniheaps.any (fun x => x.contains ptr) = true :=
      List.any_eq_true.mpr ⟨mh, hmem, hc⟩
    refine ⟨{ gh with
        miniheaps := gh.miniheaps.map fun x => if x.contains ptr then x.freePtr ptr else x },
      ?_, ?_⟩
    · simp [GlobalHeap.free, hany]
    · show gh.miniheaps.map _ = gh.miniheaps.map _
      apply List.map_congr_left
      intro x hx
      by_cases hxm : x = mh
      · subst hxm
        rw [hc]
        simp
      · rw [huniq x hx hxm]
        simp [hxm]
  · exact count_set_false mh.bits (mh.slotOf ptr) hlive
  · intro j hj
    exact getD_set_ne mh.bits (mh.slotOf ptr) j false (fun h => hj h.symm)
  · intro ptr2 hne hlive2 htwo
    have h1 : (mh.freePtr ptr).inUseCount + 1 = mh.inUseCount :=
      count_set_false mh.bits (mh.slotOf ptr) hlive
    constructor
    · rw [MiniHeap.isEmpty]
      have : (mh.freePtr ptr).inUseCount = 1 := by omega
      simp [this]
    · rw [MiniHeap.isEmpty]
      have hlive2' : (mh.freePtr ptr).bits.getD ((mh.freePtr ptr).slotOf ptr2) false = true := by
        rw [slotOf_freePtr]
        rw [MiniHeap.freePtr]
        show (mh.bits.set (mh.slotOf ptr) false).getD (mh.slotOf ptr2) false = true
        rw [getD_set_ne mh.bits _ _ false (fun h => hne h.symm)]
        exact hlive2
      have h2 : ((mh.freePtr ptr).freePtr ptr2).inUseCount + 1 = (mh.freePtr ptr).inUseCount :=
        count_set_false (mh.freePtr ptr).bits ((mh.freePtr ptr).slotOf ptr2) hlive2'
      have : ((mh.freePtr ptr).freePtr ptr2).inUseCount = 0 := by omega
      simp [this]

/-- Witness for C10: a single 2-slot MiniHeap with both slots live; freeing
pointer 0 then pointer 1. -/
theorem C10_witness :
    (∃ gh', (GlobalHeap.mk [MiniHeap.mk 0 [] 1 [true, true]] (fun va => some va) (fun _ => 0)).free 0 =
        some gh' ∧
      gh'.miniheaps = [MiniHeap.mk 0 [] 1 [true, true]].map
        (fun x => if x = MiniHeap.mk 0 [] 1 [true, true]
          then (MiniHeap.mk 0 [] 1 [true, true]).freePtr 0 else x)) ∧
    ((MiniHeap.mk 0 [] 1 [true, true]).freePtr 0).inUseCount + 1 =
      (MiniHeap.mk 0 [] 1 [true, true]).inUseCount ∧
    (∀ j, j ≠ (MiniHeap.mk 0 [] 1 [true, true]).slotOf 0 →
      ((MiniHeap.mk 0 [] 1 [true, true]).freePtr 0).bits.getD j false =
        (MiniHeap.mk 0 [] 1 [true, true]).bits.getD j false) ∧
    (∀ ptr2, (MiniHeap.mk 0 [] 1 [true, true]).slotOf ptr2 ≠ (MiniHeap.mk 0 [] 1 [true, true]).slotOf 0 →
      (MiniHeap.mk 0 [] 1 [true, true]).bits.getD ((MiniHeap.mk 0 [] 1 [true, true]).slotOf ptr2) false = true →
      (MiniHeap.mk 0 [] 1 [true, true]).inUseCount = 2 →
      ((MiniHeap.mk 0 [] 1 [true, true]).freePtr 0).isEmpty = false ∧
        (((MiniHeap.mk 0 [] 1 [true, true]).freePtr 0).freePtr ptr2).isEmpty = true) :=
  C10_free_frame_spec _ _ 0 (by decide) (by decide) (by decide) (by decide)

/- ### Symmetry of meshing -/

theorem bitmapsMeshable_comm (x y : List Nat) (len : Nat) :
    bitmapsMeshable x y len = bitmapsMeshable y x len := by
  simp only [bitmapsMeshable]
  congr 1
  funext j
  rw [Nat.land_comm]

/-- Claim C9: the meshability predicate is symmetric in its two bitmap
arguments, and a meshable pair can be meshed with either MiniHeap in the
survivor role: both orders succeed (consumed handle nulled) and both
yield the same survivor in-use count, the sum of the two original
counts. -/
theorem C9_mesh_either_order (gh : GlobalHeap) (a b : MiniHeap)
    (hcnt : a.maxCount = b.maxCount) (hobj : a.objectSize = b.objectSize)
    (hab : a ≠ b)
    (hmesh : bitmapsMeshable a.bitmapBytes b.bitmapBytes a.byteCnt = true) :
    (∀ (x y : List Nat) (len : Nat), bitmapsMeshable x y len = bitmapsMeshable y x len) ∧
    bitmapsMeshable b.bitmapBytes a.bitmapBytes b.byteCnt = true ∧
    (gh.meshLocked a b).2.1.inUseCount = a.inUseCount + b.inUseCount ∧
    (gh.meshLocked a b).2.2 = none ∧
    (gh.meshLocked b a).2.1.inUseCount = a.inUseCount + b.inUseCount ∧
    (gh.meshLocked b a).2.2 = none := by
  have hbyte : b.byteCnt = a.byteCnt := by
    rw [MiniHeap.byteCnt, MiniHeap.byteCnt]
    rw [MiniHeap.maxCount, MiniHeap.maxCount] at hcnt
    rw [hcnt]
  have hmesh' : bitmapsMeshable b.bitmapBytes a.bitmapBytes b.byteCnt = true := by
    rw [hbyte, bitmapsMeshable_comm]
    exact hmesh
  have hcore := meshLocked_core gh a b hcnt hmesh
  have hcore' := meshLocked_core gh b a hcnt.symm hmesh'
  exact ⟨bitmapsMeshable_comm, hmesh', hcore.2.1, hcore.2.2,
    by rw [hcore'.2.1, Nat.add_comm], hcore'.2.2⟩

/-- Witness for C9: two 3-slot MiniHeaps with disjoint occupancy, meshed in
both orders. -/
theorem C9_witness :
    (∀ (x y : List Nat) (len : Nat), bitmapsMeshable x y len = bitmapsMeshable y x len) ∧
    bitmapsMeshable (MiniHeap.mk 200 [] 2 [false, true, false]).bitmapBytes
      (MiniHeap.mk 0 [] 2 [true, false, true]).bitmapBytes
      (MiniHeap.mk 200 [] 2 [false, true, false]).byteCnt = true ∧
    ((GlobalHeap.mk [MiniHeap.mk 0 [] 2 [true, false, true], MiniHeap.mk 200 [] 2 [false, true, false]]
        (fun va => some va) (fun _ => 0)).meshLocked
        (MiniHeap.mk 0 [] 2 [true, false, true]) (MiniHeap.mk 200 [] 2 [false, true, false])).2.1.inUseCount =
      (MiniHeap.mk 0 [] 2 [true, false, true]).inUseCount +
        (MiniHeap.mk 200 [] 2 [false, true, false]).inUseCount ∧
    ((GlobalHeap.mk [MiniHeap.mk 0 [] 2 [true, false, true], MiniHeap.mk 200 [] 2 [false, true, false]]
        (fun va => some va) (fun _ => 0)).meshLocked
        (MiniHeap.mk 0 [] 2 [true, false, true]) (MiniHeap.mk 200 [] 2 [false, true, false])).2.2 = none ∧
    ((GlobalHeap.mk [MiniHeap.mk 0 [] 2 [true, false, true], MiniHeap.mk 200 [] 2 [false, true, false]]
        (fun va => some va) (fun _ => 0)).meshLocked
        (MiniHeap.mk 200 [] 2 [false, true, false]) (MiniHeap.mk 0 [] 2 [true, false, true])).2.1.inUseCount =
      (MiniHeap.mk 0 [] 2 [true, false, true]).inUseCount +
        (MiniHeap.mk 200 [] 2 [false, true, false]).inUseCount ∧
    ((GlobalHeap.mk [MiniHeap.mk 0 [] 2 [true, false, true], MiniHeap.mk 200 [] 2 [false, true, false]]
        (fun va => some va) (fun _ => 0)).meshLocked
        (MiniHeap.mk 200 [] 2 [false, true, false]) (MiniHeap.mk 0 [] 2 [true, false, true])).2.2 = none :=
  C9_mesh_either_order _ _ _ (by decide) (by decide) (by decide) (by decide)

/- ### Virtual-memory lemmas for the copy and remap phases -/

theorem writeV_vmap (g : GlobalHeap) (va c : Nat) : (g.writeV va c).vmap = g.vmap := by
  rw [GlobalHeap.writeV]
  split <;> rfl

theorem writeV_miniheaps (g : GlobalHeap) (va c : Nat) :
    (g.writeV va c).miniheaps = g.miniheaps := by
  rw [GlobalHeap.writeV]
  split <;> rfl

theorem readV_writeV_ne (g : GlobalHeap) (va vb c : Nat)
    (h : ∀ pa, g.vmap va = some pa → g.vmap vb ≠ some pa) :
    (g.writeV va c).readV vb = g.readV vb := by
  cases hva : g.vmap va with
  | none => simp only [GlobalHeap.writeV, hva]
  | some pa =>
    simp only [GlobalHeap.writeV, hva]
    rw [GlobalHeap.readV, GlobalHeap.readV]
    cases hvb : g.vmap vb with
    | none => rfl
    | some pv =>
      have hne : pv ≠ pa := fun he => h pa hva (he ▸ hvb)
      simp [hne]

theorem readV_writeV_same (g : GlobalHeap) (va vb c pa : Nat)
    (hsame : g.vmap vb = g.vmap va) (hva : g.vmap va = some pa) :
    (g.writeV va c).readV vb = some c := by
  simp only [GlobalHeap.writeV, hva]
  simp [GlobalHeap.readV, hsame, hva]

theorem copyLiveAux_vmap (a b : MiniHeap) : ∀ (n : Nat) (gh : GlobalHeap),
    (copyLiveAux a b n gh).vmap = gh.vmap := by
  intro n
  induction n with
  | zero => intro gh; rfl
  | succ k ih =>
    intro gh
    simp only [copyLiveAux]
    split
    · split
      · rw [writeV_vmap, ih]
      · exact ih gh
    · exact ih gh

theorem copyLiveAux_miniheaps (a b : MiniHeap) : ∀ (n : Nat) (gh : GlobalHeap),
    (copyLiveAux a b n gh).miniheaps = gh.miniheaps := by
  intro n
  induction n with
  | zero => intro gh; rfl
  | succ k ih =>
    intro gh
    simp only [copyLiveAux]
    split
    · split
      · rw [writeV_miniheaps, ih]
      · exact ih gh
    · exact ih gh

theorem copyLiveAux_readV_untouched (a b : MiniHeap) (gh : GlobalHeap) (vb : Nat) :
    ∀ n, (∀ k, k < n → ∀ pa, gh.vmap (a.base + k) = some pa → gh.vmap vb ≠ some pa) →
      (copyLiveAux a b n gh).readV vb = gh.readV vb := by
  intro n
  induction n with
  | zero => intro _; rfl
  | succ k ih =>
    intro h
    have hk := fun j hj => h j (Nat.lt_succ_of_lt hj)
    simp only [copyLiveAux]
    split
    · split
      · rw [readV_writeV_ne]
        · exact ih hk
        · intro pa hpa
          rw [copyLiveAux_vmap] at hpa ⊢
          exact h k (Nat.lt_succ_self k) pa hpa
      · exact ih hk
    · exact ih hk

theorem copyLiveAux_readV_target (a b : MiniHeap) (gh : GlobalHeap) (N : Nat)
    (hBmap : ∀ k, k < N → (gh.vmap (b.base + k)).isSome = true)
    (hAmap : ∀ k, k < N → (gh.vmap (a.base + k)).isSome = true)
    (hAinj : ∀ k j, k < N → j < N → gh.vmap (a.base + k) = gh.vmap (a.base + j) → k = j)
    (hAB : ∀ k j, k < N → j < N → gh.vmap (a.base + k) ≠ gh.vmap (b.base + j)) :
    ∀ n, n ≤ N → ∀ k, k < N →
      (copyLiveAux a b n gh).readV (a.base + k) =
        if k < n ∧ b.bits.getD (k / b.objectSize) false = true
        then gh.readV (b.base + k) else gh.readV (a.base + k) := by
  intro n
  induction n with
  | zero =>
    intro _ k _
    rw [if_neg (fun hand => Nat.not_lt_zero k hand.1)]
    rfl
  | succ m ih =>
    intro hn k hk
    have hm : m ≤ N := Nat.le_of_succ_le hn
    have hmN : m < N := hn
    simp only [copyLiveAux]
    by_cases hlive : b.bits.getD (m / b.objectSize) false = true
    · rw [if_pos hlive]
      have hread : (copyLiveAux a b m gh).readV (b.base + m) = gh.readV (b.base + m) :=
        copyLiveAux_readV_untouched a b gh (b.base + m) m
          (fun j hj pa hpa hpb => hAB j m (Nat.lt_of_lt_of_le hj hm) hmN (hpa.trans hpb.symm))
      obtain ⟨pb, hpb⟩ := Option.isSome_iff_exists.mp (hBmap m hmN)
      have hread' : (copyLiveAux a b m gh).readV (b.base + m) = some (gh.pmem pb) := by
        rw [hread, GlobalHeap.readV, hpb]
        rfl
      rw [hread']
      by_cases hkm : k = m
      · subst hkm
        obtain ⟨pak, hpak⟩ := Option.isSome_iff_exists.mp (hAmap k hk)
        rw [readV_writeV_same _ _ _ _ pak rfl (by rw [copyLiveAux_vmap]; exact hpak)]
        rw [if_pos ⟨Nat.lt_succ_self k, hlive⟩, GlobalHeap.readV, hpb]
        rfl
      · rw [readV_writeV_ne]
        · rw [ih hm k hk]
          have hiff : (k < m ∧ b.bits.getD (k / b.objectSize) false = true) ↔
              (k < m + 1 ∧ b.bits.getD (k / b.objectSize) false = true) := by
            constructor
            · exact fun hand => ⟨Nat.lt_succ_of_lt hand.1, hand.2⟩
            · exact fun hand => ⟨Nat.lt_of_le_of_ne (Nat.lt_succ_iff.mp hand.1) hkm, hand.2⟩
          rw [if_congr hiff rfl rfl]
        · intro pa hpa
          rw [copyLiveAux_vmap] at hpa ⊢
          intro hcon
          exact hkm (hAinj k m hk hmN (hcon.trans hpa.symm))
    · rw [if_neg hlive, ih hm k hk]
      by_cases hkm : k = m
      · subst hkm
        rw [if_neg (fun hand => Nat.lt_irrefl k hand.1),
          if_neg (fun hand => hlive hand.2)]
      · have hiff : (k < m ∧ b.bits.getD (k / b.objectSize) false = true) ↔
            (k < m + 1 ∧ b.bits.getD (k / b.objectSize) false = true) := by
          constructor
          · exact fun hand => ⟨Nat.lt_succ_of_lt hand.1, hand.2⟩
          · exact fun hand => ⟨Nat.lt_of_le_of_ne (Nat.lt_succ_iff.mp hand.1) hkm, hand.2⟩
        rw [if_congr hiff rfl rfl]

theorem find?_append_of_none (p : Nat → Bool) (l1 l2 : List Nat)
    (h : ∀ s ∈ l1, p s = false) : (l1 ++ l2).find? p = l2.find? p := by
  induction l1 with
  | nil => rfl
  | cons x t ih =>
    rw [List.cons_append, List.find?_cons_of_neg]
    · exact ih (fun s hs => h s (List.mem_cons_of_mem x hs))
    · rw [h x (List.mem_cons_self x t)]
      exact Bool.false_ne_true

theorem remapSpans_vmap_primary (gh : GlobalHeap) (a b : MiniHeap) (k : Nat)
    (hk : k < b.spanSize) :
    (remapSpans gh a b).vmap (b.base + k) = gh.vmap (a.base + k) := by
  have hpred : (fun s => decide (s ≤ b.base + k) && decide (b.base + k < s + b.spanSize)) b.base
      = true := by
    simp only [Bool.and_eq_true, decide_eq_true_eq]
    omega
  have hfind : List.find? (fun s => decide (s ≤ b.base + k) && decide (b.base + k < s + b.spanSize))
      (b.base :: b.meshedSpans) = some b.base := List.find?_cons_of_pos _ hpred
  have harith : b.base + k - b.base = k := by omega
  simp only [remapSpans, MiniHeap.spanBases, hfind, harith]

theorem remapSpans_vmap_outside (gh : GlobalHeap) (a b : MiniHeap) (va : Nat)
    (h : ∀ s ∈ b.spanBases, ¬(s ≤ va ∧ va < s + b.spanSize)) :
    (remapSpans gh a b).vmap va = gh.vmap va := by
  have hfind : b.spanBases.find? (fun s => decide (s ≤ va) && decide (va < s + b.spanSize))
      = none := by
    rw [List.find?_eq_none]
    intro s hs
    simp only [Bool.and_eq_true, decide_eq_true_eq]
    exact fun hand => h s hs hand
  simp only [remapSpans, hfind]

theorem meshLocked_miniheaps (gh : GlobalHeap) (a b : MiniHeap)
    (hmesh : bitmapsMeshable a.bitmapBytes b.bitmapBytes a.byteCnt = true) :
    (gh.meshLocked a b).1.miniheaps =
      (gh.miniheaps.filter (fun mh => decide (mh ≠ b))).map
        (fun mh => if mh = a then mergedMiniheap a b else mh) := by
  rw [GlobalHeap.meshLocked, if_pos hmesh]
  have hmini : (remapSpans (copyLiveAux a b b.spanSize gh) a b).miniheaps = gh.miniheaps :=
    copyLiveAux_miniheaps a b b.spanSize gh
  show ((remapSpans (copyLiveAux a b b.spanSize gh) a b).miniheaps.filter _).map _ = _
  rw [hmini]

theorem meshLocked_vmap (gh : GlobalHeap) (a b : MiniHeap)
    (hmesh : bitmapsMeshable a.bitmapBytes b.bitmapBytes a.byteCnt = true) :
    (gh.meshLocked a b).1.vmap = (remapSpans (copyLiveAux a b b.spanSize gh) a b).vmap := by
  rw [GlobalHeap.meshLocked, if_pos hmesh]

theorem meshLocked_pmem (gh : GlobalHeap) (a b : MiniHeap)
    (hmesh : bitmapsMeshable a.bitmapBytes b.bitmapBytes a.byteCnt = true) :
    (gh.meshLocked a b).1.pmem = (copyLiveAux a b b.spanSize gh).pmem := by
  rw [GlobalHeap.meshLocked, if_pos hmesh]
  exact rfl

/- ### C6: the consumed span stays mapped and routes to the survivor -/

theorem getD_set_false_self (l : List Bool) (i : Nat) : (l.set i false).getD i false = false := by
  by_cases h : i < l.length
  · rw [List.getD_eq_getElem?_getD, List.getElem?_set]
    simp [h]
  · rw [List.getD_eq_default]
    rw [List.length_set]
    omega

/-- Claim C6: after a successful mesh the consumed MiniHeap b is removed from
tracking while its virtual span stays mapped (aliasing the survivor), and
a free of a pointer originally allocated from b is routed by address
lookup to the surviving MiniHeap, whose corresponding occupancy bit is
cleared. -/
theorem C6_retired_span_still_routed (gh : GlobalHeap) (a b : MiniHeap) (ptr : Nat)
    (ha : a ∈ gh.miniheaps)
    (hcnt : a.maxCount = b.maxCount) (hobj : a.objectSize = b.objectSize)
    (hbase : a.base ≠ b.base)
    (hmesh : bitmapsMeshable a.bitmapBytes b.bitmapBytes a.byteCnt = true)
    (hmapped : ∀ k, k < a.spanSize → (gh.vmap (a.base + k)).isSome = true)
    (hptr1 : b.base ≤ ptr) (hptr2 : ptr < b.base + b.spanSize)
    (hnotina : ∀ s ∈ a.spanBases, ¬(s ≤ ptr ∧ ptr < s + a.spanSize)) :
    b ∉ (gh.meshLocked a b).1.miniheaps ∧
    mergedMiniheap a b ∈ (gh.meshLocked a b).1.miniheaps ∧
    (∀ k, k < b.spanSize → ((gh.meshLocked a b).1.vmap (b.base + k)).isSome = true) ∧
    (mergedMiniheap a b).contains ptr = true ∧
    (mergedMiniheap a b).slotOf ptr = (ptr - b.base) / b.objectSize ∧
    (∃ gh2, (gh.meshLocked a b).1.free ptr = some gh2 ∧
      (mergedMiniheap a b).freePtr ptr ∈ gh2.miniheaps ∧
      ((mergedMiniheap a b).freePtr ptr).bits.getD ((ptr - b.base) / b.objectSize) false
        = false) := by
  have hlen : a.bits.length = b.bits.length := hcnt
  have hss : a.spanSize = b.spanSize := by
    rw [MiniHeap.spanSize, MiniHeap.spanSize, hcnt, hobj]
  have hmlen : (mergedMiniheap a b).bits.length = b.bits.length := by
    show (List.zipWith or a.bits b.bits).length = b.bits.length
    rw [List.length_zipWith, hlen, Nat.min_self]
  have hms : (mergedMiniheap a b).spanSize = b.spanSize := by
    rw [MiniHeap.spanSize, MiniHeap.maxCount, hmlen, MiniHeap.spanSize, MiniHeap.maxCount]
    show b.bits.length * a.objectSize = b.bits.length * b.objectSize
    rw [hobj]
  have hmb : mergedMiniheap a b ≠ b := by
    intro h
    have h2 : (mergedMiniheap a b).base = b.base := congrArg MiniHeap.base h
    exact hbase h2
  have hab : a ≠ b := fun h => hbase (congrArg MiniHeap.base h)
  have hmini := meshLocked_miniheaps gh a b hmesh
  have hmmem : mergedMiniheap a b ∈ (gh.meshLocked a b).1.miniheaps := by
    rw [hmini]
    refine List.mem_map.mpr ⟨a, List.mem_filter.mpr ⟨ha, by simp [hab]⟩, ?_⟩
    rw [if_pos rfl]
  have hcont : (mergedMiniheap a b).contains ptr = true := by
    rw [MiniHeap.contains, List.any_eq_true]
    refine ⟨b.base, ?_, ?_⟩
    · show b.base ∈ a.base :: (a.meshedSpans ++ (b.base :: b.meshedSpans))
      exact List.mem_cons_of_mem _ (List.mem_append_right _ (List.mem_cons_self _ _))
    · simp only [Bool.and_eq_true, decide_eq_true_eq]
      rw [hms]
      exact ⟨hptr1, hptr2⟩
  have hpfalse : ∀ s ∈ a.spanBases,
      (decide (s ≤ ptr) && decide (ptr < s + (mergedMiniheap a b).spanSize)) = false := by
    intro s hs
    rw [Bool.eq_false_iff]
    intro htrue
    simp only [Bool.and_eq_true, decide_eq_true_eq, hms] at htrue
    exact hnotina s hs (hss ▸ htrue)
  have hfind : List.find?
      (fun s => decide (s ≤ ptr) && decide (ptr < s + (mergedMiniheap a b).spanSize))
      (mergedMiniheap a b).spanBases = some b.base := by
    show List.find? _ (a.base :: (a.meshedSpans ++ (b.base :: b.meshedSpans))) = some b.base
    rw [List.find?_cons_of_neg]
    · rw [find?_append_of_none]
      · apply List.find?_cons_of_pos
        simp only [Bool.and_eq_true, decide_eq_true_eq]
        rw [hms]
        exact ⟨hptr1, hptr2⟩
      · exact fun s hs =>
          hpfalse s (List.mem_cons_of_mem _ hs)
    · rw [hpfalse a.base (List.mem_cons_self _ _)]
      exact Bool.false_ne_true
  have hslot : (mergedMiniheap a b).slotOf ptr = (ptr - b.base) / b.objectSize := by
    simp only [MiniHeap.slotOf, hfind]
    show (ptr - b.base) / a.objectSize = (ptr - b.base) / b.objectSize
    rw [hobj]
  refine ⟨?_, hmmem, ?_, hcont, hslot, ?_⟩
  · rw [hmini]
    intro hmem
    obtain ⟨x, hxf, hxe⟩ := List.mem_map.mp hmem
    have hxb : x ≠ b := by
      have := (List.mem_filter.mp hxf).2
      simpa using this
    by_cases hxa : x = a
    · rw [if_pos hxa] at hxe
      exact hmb hxe
    · rw [if_neg hxa] at hxe
      exact hxb hxe
  · intro k hk
    rw [meshLocked_vmap gh a b hmesh, remapSpans_vmap_primary _ _ _ _ hk, copyLiveAux_vmap]
    exact hmapped k (by omega)
  · have hany : (gh.meshLocked a b).1.miniheaps.any (fun x => x.contains ptr) = true :=
      List.any_eq_true.mpr ⟨mergedMiniheap a b, hmmem, hcont⟩
    refine ⟨{ (gh.meshLocked a b).1 with
        miniheaps := (gh.meshLocked a b).1.miniheaps.map
          (fun x => if x.contains ptr then x.freePtr ptr else x) }, ?_, ?_, ?_⟩
    · simp [GlobalHeap.free, hany]
    · exact List.mem_map.mpr ⟨mergedMiniheap a b, hmmem, by rw [if_pos hcont]⟩
    · show ((mergedMiniheap a b).bits.set ((mergedMiniheap a b).slotOf ptr) false).getD
        ((ptr - b.base) / b.objectSize) false = false
      rw [hslot]
      exact getD_set_false_self _ _

/-- Witness for C6: 2-slot MiniHeaps with identity page table; pointer 11 was
allocated from the consumed MiniHeap (base 10). -/
theorem C6_witness :
    MiniHeap.mk 10 [] 1 [false, true] ∉
      ((GlobalHeap.mk [MiniHeap.mk 0 [] 1 [true, false], MiniHeap.mk 10 [] 1 [false, true]]
        (fun va => some va) (fun _ => 0)).meshLocked
        (MiniHeap.mk 0 [] 1 [true, false]) (MiniHeap.mk 10 [] 1 [false, true])).1.miniheaps ∧
    mergedMiniheap (MiniHeap.mk 0 [] 1 [true, false]) (MiniHeap.mk 10 [] 1 [false, true]) ∈
      ((GlobalHeap.mk [MiniHeap.mk 0 [] 1 [true, false], MiniHeap.mk 10 [] 1 [false, true]]
        (fun va => some va) (fun _ => 0)).meshLocked
        (MiniHeap.mk 0 [] 1 [true, false]) (MiniHeap.mk 10 [] 1 [false, true])).1.miniheaps ∧
    (∀ k, k < (MiniHeap.mk 10 [] 1 [false, true]).spanSize →
      (((GlobalHeap.mk [MiniHeap.mk 0 [] 1 [true, false], MiniHeap.mk 10 [] 1 [false, true]]
        (fun va => some va) (fun _ => 0)).meshLocked
        (MiniHeap.mk 0 [] 1 [true, false]) (MiniHeap.mk 10 [] 1 [false, true])).1.vmap
          (10 + k)).isSome = true) ∧
    (mergedMiniheap (MiniHeap.mk 0 [] 1 [true, false])
      (MiniHeap.mk 10 [] 1 [false, true])).contains 11 = true ∧
    (mergedMiniheap (MiniHeap.mk 0 [] 1 [true, false])
      (MiniHeap.mk 10 [] 1 [false, true])).slotOf 11 = (11 - 10) / 1 ∧
    (∃ gh2, ((GlobalHeap.mk [MiniHeap.mk 0 [] 1 [true, false], MiniHeap.mk 10 [] 1 [false, true]]
        (fun va => some va) (fun _ => 0)).meshLocked
        (MiniHeap.mk 0 [] 1 [true, false]) (MiniHeap.mk 10 [] 1 [false, true])).1.free 11
          = some gh2 ∧
      (mergedMiniheap (MiniHeap.mk 0 [] 1 [true, false])
        (MiniHeap.mk 10 [] 1 [false, true])).freePtr 11 ∈ gh2.miniheaps ∧
      ((mergedMiniheap (MiniHeap.mk 0 [] 1 [true, false])
        (MiniHeap.mk 10 [] 1 [false, true])).freePtr 11).bits.getD ((11 - 10) / 1) false
          = false) :=
  C6_retired_span_still_routed _ _ _ 11 (by decide) (by decide) (by decide) (by decide)
    (by decide) (fun k _ => rfl) (by decide) (by decide) (by decide)

/- ### C3: contents preserved and spans aliased -/

/-- Claim C3: after a successful mesh, any byte pattern held by a live object
of either MiniHeap is still readable unchanged through its original
pointer, and offset k of the consumed span aliases offset k of the
survivor span: reads through the two pointers agree, and a write of a
byte through either pointer is visible as that byte through the other. -/
theorem C3_contents_preserved_and_aliased (gh : GlobalHeap) (a b : MiniHeap)
    (hcnt : a.maxCount = b.maxCount) (hobj : a.objectSize = b.objectSize)
    (hmesh : bitmapsMeshable a.bitmapBytes b.bitmapBytes a.byteCnt = true)
    (hAmap : ∀ k, k < b.spanSize → (gh.vmap (a.base + k)).isSome = true)
    (hBmap : ∀ k, k < b.spanSize → (gh.vmap (b.base + k)).isSome = true)
    (hAinj : ∀ k j, k < b.spanSize → j < b.spanSize →
      gh.vmap (a.base + k) = gh.vmap (a.base + j) → k = j)
    (hAB : ∀ k j, k < b.spanSize → j < b.spanSize →
      gh.vmap (a.base + k) ≠ gh.vmap (b.base + j))
    (hdisj : ∀ k, k < b.spanSize → ∀ s ∈ b.spanBases,
      ¬(s ≤ a.base + k ∧ a.base + k < s + b.spanSize)) :
    (∀ k, k < b.spanSize → a.bits.getD (k / a.objectSize) false = true →
      (gh.meshLocked a b).1.readV (a.base + k) = gh.readV (a.base + k)) ∧
    (∀ k, k < b.spanSize → b.bits.getD (k / b.objectSize) false = true →
      (gh.meshLocked a b).1.readV (b.base + k) = gh.readV (b.base + k)) ∧
    (∀ k, k < b.spanSize →
      (gh.meshLocked a b).1.readV (b.base + k) = (gh.meshLocked a b).1.readV (a.base + k)) ∧
    (∀ k, k < b.spanSize → ∀ c,
      ((gh.meshLocked a b).1.writeV (b.base + k) c).readV (a.base + k) = some c ∧
      ((gh.meshLocked a b).1.writeV (a.base + k) c).readV (b.base + k) = some c) := by
  have hv := meshLocked_vmap gh a b hmesh
  have hp := meshLocked_pmem gh a b hmesh
  have hg1v : (copyLiveAux a b b.spanSize gh).vmap = gh.vmap := copyLiveAux_vmap a b _ gh
  have hvA : ∀ k, k < b.spanSize →
      (gh.meshLocked a b).1.vmap (a.base + k) = gh.vmap (a.base + k) := by
    intro k hk
    rw [hv, remapSpans_vmap_outside, hg1v]
    intro s hs
    exact hdisj k hk s hs
  have hvB : ∀ k, k < b.spanSize →
      (gh.meshLocked a b).1.vmap (b.base + k) = gh.vmap (a.base + k) := by
    intro k hk
    rw [hv, remapSpans_vmap_primary _ _ _ _ hk, hg1v]
  have htar := copyLiveAux_readV_target a b gh b.spanSize hBmap hAmap hAinj hAB
    b.spanSize (Nat.le_refl _)
  have hreadA : ∀ k, k < b.spanSize →
      (gh.meshLocked a b).1.readV (a.base + k) =
        (copyLiveAux a b b.spanSize gh).readV (a.base + k) := by
    intro k hk
    rw [GlobalHeap.readV, GlobalHeap.readV, hp, hvA k hk, ← hg1v]
  have hreadB : ∀ k, k < b.spanSize →
      (gh.meshLocked a b).1.readV (b.base + k) =
        (copyLiveAux a b b.spanSize gh).readV (a.base + k) := by
    intro k hk
    rw [GlobalHeap.readV, GlobalHeap.readV, hp, hvB k hk, ← hg1v]
  have hdisjbits : ∀ i, ¬(a.bits.getD i false = true ∧ b.bits.getD i false = true) :=
    (meshable_iff_disjoint a.bits b.bits a.bits.length rfl hcnt.symm).mp hmesh
  refine ⟨?_, ?_, ?_, ?_⟩
  · intro k hk halive
    have halive2 : a.bits.getD (k / b.objectSize) false = true := by
      rw [← hobj]
      exact halive
    have hbnot : ¬b.bits.getD (k / b.objectSize) false = true :=
      fun hb => hdisjbits (k / b.objectSize) ⟨halive2, hb⟩
    rw [hreadA k hk, htar k hk, if_neg (fun hand => hbnot hand.2)]
  · intro k hk hblive
    rw [hreadB k hk, htar k hk, if_pos ⟨hk, hblive⟩]
  · intro k hk
    rw [hreadA k hk, hreadB k hk]
  · intro k hk c
    obtain ⟨pa, hpa⟩ := Option.isSome_iff_exists.mp (hAmap k hk)
    constructor
    · exact readV_writeV_same _ _ _ _ pa (by rw [hvA k hk, hvB k hk])
        (by rw [hvB k hk]; exact hpa)
    · exact readV_writeV_same _ _ _ _ pa (by rw [hvB k hk, hvA k hk])
        (by rw [hvA k hk]; exact hpa)

/-- Witness for C3: identity page table, 2-slot MiniHeaps of 1-byte objects,
survivor based at 0 with slot 0 live, consumed MiniHeap based at 10 with
slot 1 live. -/
theorem C3_witness :
    (∀ k, k < (MiniHeap.mk 10 [] 1 [false, true]).spanSize →
      (MiniHeap.mk 0 [] 1 [true, false]).bits.getD
        (k / (MiniHeap.mk 0 [] 1 [true, false]).objectSize) false = true →
      ((GlobalHeap.mk [MiniHeap.mk 0 [] 1 [true, false], MiniHeap.mk 10 [] 1 [false, true]]
        (fun va => some va) (fun q => q + 7)).meshLocked
        (MiniHeap.mk 0 [] 1 [true, false]) (MiniHeap.mk 10 [] 1 [false, true])).1.readV (0 + k) =
      (GlobalHeap.mk [MiniHeap.mk 0 [] 1 [true, false], MiniHeap.mk 10 [] 1 [false, true]]
        (fun va => some va) (fun q => q + 7)).readV (0 + k)) ∧
    (∀ k, k < (MiniHeap.mk 10 [] 1 [false, true]).spanSize →
      (MiniHeap.mk 10 [] 1 [false, true]).bits.getD
        (k / (MiniHeap.mk 10 [] 1 [false, true]).objectSize) false = true →
      ((GlobalHeap.mk [MiniHeap.mk 0 [] 1 [true, false], MiniHeap.mk 10 [] 1 [false, true]]
        (fun va => some va) (fun q => q + 7)).meshLocked
        (MiniHeap.mk 0 [] 1 [true, false]) (MiniHeap.mk 10 [] 1 [false, true])).1.readV (10 + k) =
      (GlobalHeap.mk [MiniHeap.mk 0 [] 1 [true, false], MiniHeap.mk 10 [] 1 [false, true]]
        (fun va => some va) (fun q => q + 7)).readV (10 + k)) ∧
    (∀ k, k < (MiniHeap.mk 10 [] 1 [false, true]).spanSize →
      ((GlobalHeap.mk [MiniHeap.mk 0 [] 1 [true, false], MiniHeap.mk 10 [] 1 [false, true]]
        (fun va => some va) (fun q => q + 7)).meshLocked
        (MiniHeap.mk 0 [] 1 [true, false]) (MiniHeap.mk 10 [] 1 [false, true])).1.readV (10 + k) =
      ((GlobalHeap.mk [MiniHeap.mk 0 [] 1 [true, false], MiniHeap.mk 10 [] 1 [false, true]]
        (fun va => some va) (fun q => q + 7)).meshLocked
        (MiniHeap.mk 0 [] 1 [true, false]) (MiniHeap.mk 10 [] 1 [false, true])).1.readV (0 + k)) ∧
    (∀ k, k < (MiniHeap.mk 10 [] 1 [false, true]).spanSize → ∀ c,
      (((GlobalHeap.mk [MiniHeap.mk 0 [] 1 [true, false], MiniHeap.mk 10 [] 1 [false, true]]
        (fun va => some va) (fun q => q + 7)).meshLocked
        (MiniHeap.mk 0 [] 1 [true, false]) (MiniHeap.mk 10 [] 1 [false, true])).1.writeV (10 + k) c).readV
          (0 + k) = some c ∧
      (((GlobalHeap.mk [MiniHeap.mk 0 [] 1 [true, false], MiniHeap.mk 10 [] 1 [false, true]]
        (fun va => some va) (fun q => q + 7)).meshLocked
        (MiniHeap.mk 0 [] 1 [true, false]) (MiniHeap.mk 10 [] 1 [false, true])).1.writeV (0 + k) c).readV
          (10 + k) = some c) :=
  C3_contents_preserved_and_aliased _ _ _ (by decide) (by decide) (by decide)
    (fun k _ => rfl) (fun k _ => rfl)
    (fun k j _ _ h => by simpa using h)
    (fun k j hk _ h => by
      have hk2 : k < 2 := hk
      simp only [Option.some.injEq] at h
      omega)
    (fun k hk s hs => by
      have hk2 : k < 2 := hk
      simp only [MiniHeap.spanBases, List.mem_cons, List.not_mem_nil, or_false] at hs
      subst hs
      intro hand
      have h1 : (10 : Nat) ≤ 0 + k := hand.1
      omega)

end Mesh
